import Mathlib

/-!
Shallow embedding of `rural_urban_pop_by_dept.py`: a batch job that, for each
Landscan population raster `data/lspop<year>/hdr.adf`, clips it to a fixed
bounding box, splits the population grid into rural/urban parts using a static
classification raster (`0` = urban, `1` = rural, `3` = no-data), sums each part
per municipio (zone polygon) with `rasterstats.zonal_stats`, and appends one CSV
row per zone and year.

Conventions of the embedding:
* a raster band is a `List (List Int)` (rows of pixel values); a clipped raster
  (`mask(..., crop=True)`) is a list of bands, matching the numpy 3D layout
  `(band, row, column)` of the source;
* the rural/urban classification raster is single band, so its clipped image is
  represented by that one band; numpy broadcasting of the 1-band comparison
  `r_img == v` against a multi-band `p_img` applies the band-0 comparison to
  every band, which the embedding mirrors by mapping over the bands;
* geometries and the rasterization of a zone polygon onto the common pixel grid
  are abstract: a zone feature carries the list of pixel coordinates that the
  zonal-statistics rasterization assigns to it (the pixel-in-polygon policy is
  delegated to the external library, spec 4.4.3);
* external I/O (fiona, rasterio, glob) is an environment `Env`: the run is a
  pure function of the environment, and a failing library call is an
  `Except.error` that aborts the remaining work, like a Python exception.
-/

/-- A single raster band: rows of pixel values. -/
abbrev Grid := List (List Int)

/-- Pixel lookup `g[r][c]` with value 0 outside the grid (the embedding only
relies on in-grid pixels; the default keeps the function total). -/
def getPixel (g : Grid) (rc : Nat × Nat) : Int :=
  ((g[rc.1]?.getD [])[rc.2]?).getD 0

/-- `np.where(m == v, p, 0)` on one band: keep `p` where the mask band equals
`v`, else 0.  `List.zipWith` matches numpy elementwise application on grids of
equal shape (the script assumes equal shapes, spec 4.4.1). -/
def npWhere (m p : Grid) (v : Int) : Grid :=
  List.zipWith (fun mr pr => List.zipWith (fun a b => if a = v then b else 0) mr pr) m p

/-- One zone feature from `data/GTM_adm2.shp`: the `ID_2` and `NAME_2`
properties plus the pixel coordinates of the common clipped grid that the
zonal-statistics rasterization assigns to the polygon. -/
structure Feature where
  id : Int
  name : String
  pixels : List (Nat × Nat)
deriving DecidableEq

/-- One output record (a row dict of the script): id, name, year and the two
population sums.  A sum is `none` when the zone rasterizes to no pixels
(`rasterstats` reports `None` there; spec 4.4.3 leaves the convention open). -/
structure Record where
  id : Int
  name : String
  year : String
  rural_pop : Option Int
  urban_pop : Option Int
deriving DecidableEq

/-- Modelled from the spec: the per-zone reduction of
`rasterstats.zonal_stats(..., stats=["sum"])` for one zone — the sum of the
band values over the pixels rasterized to the zone, `none` when the zone has
no pixels (spec 4.4.3, glossary "Zonal statistics"). -/
def zoneSum (pixels : List (Nat × Nat)) (g : Grid) : Option Int :=
  match pixels with
  | [] => none
  | _ => some ((pixels.map (fun rc => getPixel g rc)).sum)

/-- Modelled from the spec: `rasterstats.zonal_stats(features, band, ...)` —
one `sum` statistic per feature, in feature order, neither reordered nor
filtered (spec 4.4.5). -/
def zonal_stats (features : List Feature) (g : Grid) : List (Option Int) :=
  features.map (fun f => zoneSum f.pixels g)

/-- Python `zip` over three lists: truncates at the shortest. -/
def zipWith3 {α β γ δ : Type} (f : α → β → γ → δ) : List α → List β → List γ → List δ
  | [], _, _ => []
  | _ :: _, [], _ => []
  | _ :: _, _ :: _, [] => []
  | a :: as, b :: bs, c :: cs => f a b c :: zipWith3 f as bs cs

/-- The per-raster body of the `for pop_raster in pop_rasters` loop, after the
clipped population image `p_img` has been read: build `rural_pop`/`urban_pop`
with `np.where`, run `zonal_stats` on band 0 of each, and assemble one record
per feature by zipping features with the two statistics lists. -/
def processRaster (features : List Feature) (r_img : Grid) (p_img : List Grid)
    (year : String) : List Record :=
  let rural_pop := p_img.map (fun band => npWhere r_img band 1)
  let urban_pop := p_img.map (fun band => npWhere r_img band 0)
  let rural_stats := zonal_stats features (rural_pop[0]?.getD [])
  let urban_stats := zonal_stats features (urban_pop[0]?.getD [])
  zipWith3
    (fun f rs us => { id := f.id, name := f.name, year := year,
                      rural_pop := rs, urban_pop := us })
    features rural_stats urban_stats

/-- Total population of a zone over the pixels whose mask value is 0 or 1
(no-data and any other mask value excluded).  Reference quantity for the
partition property (spec section 8, first bullet). -/
def maskedTotal (pixels : List (Nat × Nat)) (m p : Grid) : Int :=
  (pixels.map (fun rc =>
    if getPixel m rc = 0 ∨ getPixel m rc = 1 then getPixel p rc else 0)).sum

/-- Lexicographic comparison of strings as lists of characters by code point,
the order Python uses to compare `str` values in `sorted`. -/
def lexLe : List Char → List Char → Bool
  | [], _ => true
  | _ :: _, [] => false
  | a :: as, b :: bs =>
    if a.toNat < b.toNat then true
    else if b.toNat < a.toNat then false
    else lexLe as bs

/-- String comparison used by Python `sorted` on paths. -/
def strLe (a b : String) : Bool :=
  lexLe a.data b.data

/-- Insert a path into an already sorted list of paths. -/
def insertPath (x : String) : List String → List String
  | [] => [x]
  | y :: ys => if strLe x y then x :: y :: ys else y :: insertPath x ys

/-- `sorted(...)` on a list of path strings.  Python uses a stable sort, but
`strLe` is antisymmetric (equal keys are equal strings), so every correct sort
returns the same list; insertion sort is the simplest faithful model. -/
def sortPaths : List String → List String
  | [] => []
  | x :: xs => insertPath x (sortPaths xs)

/-- `sep` matches `s` position by position from the start (Python substring
match at an offset). -/
def leadsWith : List Char → List Char → Bool
  | [], _ => true
  | _ :: _, [] => false
  | a :: as, b :: bs => a == b && leadsWith as bs

/-- `sep` occurs in `s` at offset `i`. -/
def occursAt (sep s : List Char) (i : Nat) : Prop :=
  leadsWith sep (s.drop i) = true

/-- `i` is the offset of the first occurrence of `sep` in `s`. -/
def firstOccAt (sep s : List Char) (i : Nat) : Prop :=
  occursAt sep s i ∧ ∀ j, j < i → ¬ occursAt sep s j

instance (sep s : List Char) (i : Nat) : Decidable (occursAt sep s i) := by
  unfold occursAt
  infer_instance

instance (sep s : List Char) (i : Nat) : Decidable (firstOccAt sep s i) := by
  unfold firstOccAt
  infer_instance

/-- Offset of the first occurrence of `sep` in `s`, as CPython `str.find`
computes it for `str.split`. -/
def firstMatchPos (sep : List Char) : List Char → Option Nat
  | [] => if leadsWith sep [] then some 0 else none
  | c :: t =>
    if leadsWith sep (c :: t) then some 0
    else (firstMatchPos sep t).map (fun n => n + 1)

/-- Python `s.split(sep, 1)`: two pieces around the first occurrence of `sep`,
or the whole string when `sep` does not occur. -/
def pySplitOnce (sep s : List Char) : List (List Char) :=
  match firstMatchPos sep s with
  | none => [s]
  | some i => [s.take i, s.drop (i + sep.length)]

/-- `s.split(sep)[0]`: the text before the first occurrence of `sep`, or all of
`s` when `sep` does not occur (Python split never returns an empty list). -/
def pyHeadSplit (sep s : List Char) : List Char :=
  match firstMatchPos sep s with
  | none => s
  | some i => s.take i

/-- Line 88 of the script:
`pop_raster.split("lspop", 1)[1].split("/hdr.adf")[0]`.
`none` models the `IndexError` Python raises when `"lspop"` does not occur in
the path (then `split` returns a single piece and `[1]` is out of range). -/
def extract_year (path : String) : Option String :=
  match (pySplitOnce ("lspop".data) path.data)[1]? with
  | none => none
  | some rest => some (String.mk (pyHeadSplit ("/hdr.adf".data) rest))

/-- One feature of `data/ca_boundingbox.shp`; only its geometry is used, kept
abstract as a handle. -/
structure BBoxFeature where
  geometry : Nat
deriving DecidableEq

/-- The environment `main` runs against: the contents of the input files and
the behaviour of the external geospatial library calls on them.
* `boundingbox`: the feature collection of `data/ca_boundingbox.shp`;
* `features`: the zone features of `data/GTM_adm2.shp` in file order;
* `maskRural`: `mask(rasterio.open("data/rural.tif"), geoms, crop=True)` —
  the single band of the clipped classification image for a geometry list;
* `maskPop`: opening and clipping one population raster (lines 67-70); an
  `Except.error` models any I/O or library exception for that raster;
* `globLspop`: the matches `glob("data/lspop*/hdr.adf")` returns, in whatever
  order the filesystem yields them. -/
structure Env where
  boundingbox : List BBoxFeature
  features : List Feature
  maskRural : List Nat → Grid
  maskPop : String → List Nat → Except String (List Grid)
  globLspop : List String

/-- Line 45: `clip_box = [box["geometry"] for box in boundingbox]` — the list
of all geometries of the bounding-box file, in file order. -/
def clip_box (env : Env) : List Nat :=
  env.boundingbox.map (fun b => b.geometry)

/-- Lines 54-55: the clipped rural/urban classification band `r_img`. -/
def r_imgOf (env : Env) : Grid :=
  env.maskRural (clip_box env)

/-- Lines 24-37: `get_pop_rasters` — `sorted(glob(pop_dir + "lspop*/hdr.adf"))`. -/
def get_pop_rasters (env : Env) : List String :=
  sortPaths env.globLspop

/-- One iteration of the raster loop (lines 65-101): read and clip the raster
with the shared `clip_box` geometries, derive the rural/urban grids, compute
the statistics, extract the year and build the records.  The first failing
library call aborts the iteration with its error. -/
def processOne (env : Env) (g : List Nat) (r_img : Grid) (path : String) :
    Except String (List Record) :=
  match env.maskPop path g with
  | Except.error e => Except.error e
  | Except.ok p_img =>
    match extract_year path with
    | none => Except.error "IndexError"
    | some year => Except.ok (processRaster env.features r_img p_img year)

/-- The records a successful iteration emits (empty on the error branch; only
used to describe runs whose iterations succeeded). -/
def okRecords (env : Env) (g : List Nat) (r_img : Grid) (path : String) :
    List Record :=
  match processOne env g r_img path with
  | Except.ok recs => recs
  | Except.error _ => []

/-- The raster loop: records written so far, the first uncaught error (if any),
and the geometry lists passed to the per-raster `mask` calls, in call order.
An error stops the loop: later rasters are neither read nor written, while
rows of earlier iterations stay written. -/
def runLoop (env : Env) (g : List Nat) (r_img : Grid) :
    List String → List Record × Option String × List (List Nat)
  | [] => ([], none, [])
  | path :: rest =>
    match processOne env g r_img path with
    | Except.error e => ([], some e, [g])
    | Except.ok recs =>
      let r := runLoop env g r_img rest
      (recs ++ r.1, r.2.1, g :: r.2.2)

/-- The fixed CSV header row (lines 59-61). -/
def csvHeader : List String :=
  ["id", "name", "year", "rural_pop", "urban_pop"]

/-- How `csv.DictWriter` renders one sum: `None` becomes the empty field. -/
def optCell : Option Int → String
  | none => ""
  | some v => toString v

/-- One CSV data row for a record. -/
def recordRow (r : Record) : List String :=
  [toString r.id, r.name, r.year, optCell r.rural_pop, optCell r.urban_pop]

/-- All records the run writes (rows of completed years, in write order). -/
def recsOf (env : Env) : List Record :=
  (runLoop env (clip_box env) (r_imgOf env) (get_pop_rasters env)).1

/-- The first uncaught error of the run, if any. -/
def errOf (env : Env) : Option String :=
  (runLoop env (clip_box env) (r_imgOf env) (get_pop_rasters env)).2.1

/-- The whole of `main` after the three setup reads: the CSV rows written
(header first, then the rows of each completed year) and the first uncaught
error. -/
def mainOutput (env : Env) : List (List String) × Option String :=
  (csvHeader :: (recsOf env).map recordRow, errOf env)

/-- The geometry-list arguments of every `mask` call of the run, in call
order: first the land-use clip (line 55), then one per population raster the
loop reaches (line 70). -/
def maskCallLog (env : Env) : List (List Nat) :=
  clip_box env ::
    (runLoop env (clip_box env) (r_imgOf env) (get_pop_rasters env)).2.2

/-- `open("rural_urban_pop.csv", "w")`: truncating open — whatever the file
held before is discarded. -/
def openTruncate (_prev : List (List String)) : List (List String) :=
  []

/-- The CSV file contents after a run, as a function of the environment and of
the file contents before the run. -/
def fileAfterRun (env : Env) (prev : List (List String)) : List (List String) :=
  openTruncate prev ++ (mainOutput env).1

/-- Concrete one-zone, one-raster environment where every call succeeds. -/
def envOk : Env :=
  { boundingbox := [{ geometry := 7 }]
    features := [{ id := 1, name := "A", pixels := [(0, 0), (0, 1)] }]
    maskRural := fun _ => [[1, 0]]
    maskPop := fun _ _ => Except.ok [[[5, 6]]]
    globLspop := ["data/lspop2005/hdr.adf"] }

/-- Concrete environment with an empty glob result. -/
def envNoRasters : Env :=
  { boundingbox := [{ geometry := 7 }]
    features := [{ id := 1, name := "A", pixels := [(0, 0)] }]
    maskRural := fun _ => [[1]]
    maskPop := fun _ _ => Except.ok [[[5]]]
    globLspop := [] }

/-- Concrete environment whose glob result lists the years out of order. -/
def envGlob3 : Env :=
  { boundingbox := [{ geometry := 7 }]
    features := [{ id := 1, name := "A", pixels := [(0, 0)] }]
    maskRural := fun _ => [[1]]
    maskPop := fun _ _ => Except.ok [[[5]]]
    globLspop := ["data/lspop1998/hdr.adf", "data/lspop2000/hdr.adf",
                  "data/lspop1999/hdr.adf"] }

/-- Concrete environment with an empty bounding-box file and a failing
population-raster read. -/
def envFail : Env :=
  { boundingbox := []
    features := [{ id := 1, name := "A", pixels := [(0, 0)] }]
    maskRural := fun _ => [[1]]
    maskPop := fun _ _ => Except.error "RasterioIOError"
    globLspop := ["data/lspop2005/hdr.adf"] }

/-- Year string of a path, with the empty string standing for the absent
case (only used for paths where extraction succeeds). -/
def yearD (p : String) : String :=
  (extract_year p).getD ""

/-- The record `processRaster` builds for one feature, given the clipped
population bands. -/
def recordFor (r_img : Grid) (p_img : List Grid) (year : String) (f : Feature) :
    Record :=
  { id := f.id, name := f.name, year := year,
    rural_pop := zoneSum f.pixels (npWhere r_img (p_img[0]?.getD []) 1),
    urban_pop := zoneSum f.pixels (npWhere r_img (p_img[0]?.getD []) 0) }

theorem zipWith3_map_getElem? {α β γ δ : Type} (f : α → β → γ → δ)
    (g1 : α → β) (g2 : α → γ) (as : List α) (i : Nat) :
    (zipWith3 f as (as.map g1) (as.map g2))[i]? =
      as[i]?.map (fun a => f a (g1 a) (g2 a)) := by
  induction as generalizing i with
  | nil => simp [zipWith3]
  | cons a as ih =>
    cases i with
    | zero => simp [zipWith3]
    | succ n => simpa [zipWith3] using ih n

theorem zipWith3_map_length {α β γ δ : Type} (f : α → β → γ → δ)
    (g1 : α → β) (g2 : α → γ) (as : List α) :
    (zipWith3 f as (as.map g1) (as.map g2)).length = as.length := by
  induction as with
  | nil => simp [zipWith3]
  | cons a as ih => simpa [zipWith3] using ih

theorem mem_zipWith3_map {α β γ δ : Type} {f : α → β → γ → δ}
    {g1 : α → β} {g2 : α → γ} {as : List α} {d : δ}
    (h : d ∈ zipWith3 f as (as.map g1) (as.map g2)) :
    ∃ a, a ∈ as ∧ d = f a (g1 a) (g2 a) := by
  induction as with
  | nil => simp [zipWith3] at h
  | cons a as ih =>
    simp only [List.map_cons, zipWith3, List.mem_cons] at h
    rcases h with h | h
    · exact ⟨a, List.mem_cons_self a as, h⟩
    · rcases ih h with ⟨a', ha', hd⟩
      exact ⟨a', List.mem_cons_of_mem a ha', hd⟩

theorem bandZero_map_npWhere (m : Grid) (bands : List Grid) (v : Int) :
    ((bands.map (fun band => npWhere m band v))[0]?).getD [] =
      npWhere m (bands[0]?.getD []) v := by
  cases bands with
  | nil => simp [npWhere]
  | cons b bs => simp

theorem processRaster_getElem? (fs : List Feature) (r_img : Grid)
    (p_img : List Grid) (year : String) (i : Nat) :
    (processRaster fs r_img p_img year)[i]? =
      fs[i]?.map (recordFor r_img p_img year) := by
  simp only [processRaster, zonal_stats]
  rw [bandZero_map_npWhere, bandZero_map_npWhere]
  exact zipWith3_map_getElem? _ _ _ fs i

theorem processRaster_length (fs : List Feature) (r_img : Grid)
    (p_img : List Grid) (year : String) :
    (processRaster fs r_img p_img year).length = fs.length := by
  simp only [processRaster, zonal_stats]
  exact zipWith3_map_length _ _ _ fs

theorem year_of_mem_processRaster {fs : List Feature} {r_img : Grid}
    {p_img : List Grid} {year : String} {r : Record}
    (h : r ∈ processRaster fs r_img p_img year) : r.year = year := by
  simp only [processRaster, zonal_stats] at h
  rcases mem_zipWith3_map h with ⟨f, _, rfl⟩
  rfl

theorem zipWith_if_getD (v : Int) (a : List Int) :
    ∀ (b : List Int), a.length = b.length → ∀ (c : Nat),
    ((List.zipWith (fun x y => if x = v then y else 0) a b)[c]?).getD 0 =
      if (a[c]?).getD 0 = v then (b[c]?).getD 0 else 0 := by
  induction a with
  | nil =>
    intro b hl c
    have hb : b = [] := by
      cases b with
      | nil => rfl
      | cons y ys => simp at hl
    subst hb
    simp
  | cons x xs ih =>
    intro b hl c
    cases b with
    | nil => simp at hl
    | cons y ys =>
      cases c with
      | zero => simp
      | succ n =>
        have hl' : xs.length = ys.length := by simpa using hl
        simpa using ih ys hl' n

theorem getPixel_npWhere (v : Int) (m : Grid) :
    ∀ (p : Grid), m.map List.length = p.map List.length →
    ∀ (r c : Nat),
    getPixel (npWhere m p v) (r, c) =
      if getPixel m (r, c) = v then getPixel p (r, c) else 0 := by
  induction m with
  | nil =>
    intro p h r c
    have hp : p = [] := by
      cases p with
      | nil => rfl
      | cons pr pt => simp at h
    subst hp
    simp [npWhere, getPixel]
  | cons mr mt ih =>
    intro p h r c
    cases p with
    | nil => simp at h
    | cons pr pt =>
      simp only [List.map_cons, List.cons.injEq] at h
      cases r with
      | zero =>
        simpa [npWhere, getPixel] using zipWith_if_getD v mr pr h.1 c
      | succ n =>
        simpa [npWhere, getPixel] using ih pt h.2 n c

theorem npWhere_pointwise_add (gm gp : Int) :
    (if gm = 1 then gp else 0) + (if gm = 0 then gp else 0) =
      if gm = 0 ∨ gm = 1 then gp else 0 := by
  by_cases h0 : gm = 0
  · subst h0
    norm_num
  · by_cases h1 : gm = 1
    · subst h1
      norm_num
    · simp [h0, h1]

theorem sum_npWhere_split (m p : Grid)
    (h : m.map List.length = p.map List.length) (pixels : List (Nat × Nat)) :
    (pixels.map (fun rc => getPixel (npWhere m p 1) rc)).sum +
      (pixels.map (fun rc => getPixel (npWhere m p 0) rc)).sum =
      maskedTotal pixels m p := by
  induction pixels with
  | nil => simp [maskedTotal]
  | cons rc rest ih =>
    simp only [List.map_cons, List.sum_cons, maskedTotal] at ih ⊢
    rw [getPixel_npWhere 1 m p h rc.1 rc.2, getPixel_npWhere 0 m p h rc.1 rc.2]
    have hpt := npWhere_pointwise_add (getPixel m (rc.1, rc.2)) (getPixel p (rc.1, rc.2))
    have : rc = (rc.1, rc.2) := rfl
    rw [← this] at hpt ⊢
    omega

theorem zoneSum_getD (pixels : List (Nat × Nat)) (g : Grid) :
    (zoneSum pixels g).getD 0 = (pixels.map (fun rc => getPixel g rc)).sum := by
  cases pixels with
  | nil => simp [zoneSum]
  | cons rc rest => simp [zoneSum]

theorem zoneSum_none_iff (pixels : List (Nat × Nat)) (g : Grid) :
    zoneSum pixels g = none ↔ pixels = [] := by
  cases pixels with
  | nil => simp [zoneSum]
  | cons rc rest => simp [zoneSum]

theorem lexLe_refl (a : List Char) : lexLe a a = true := by
  induction a with
  | nil => rfl
  | cons x xs ih => simp [lexLe, ih]

theorem lexLe_total (a : List Char) : ∀ (b : List Char),
    lexLe a b = true ∨ lexLe b a = true := by
  induction a with
  | nil => intro b; left; rfl
  | cons x xs ih =>
    intro b
    cases b with
    | nil => right; rfl
    | cons y ys =>
      by_cases hxy : x.toNat < y.toNat
      · left
        simp [lexLe, hxy]
      · by_cases hyx : y.toNat < x.toNat
        · right
          simp [lexLe, hyx]
        · rcases ih ys with h | h
          · left
            simp [lexLe, hxy, hyx, h]
          · right
            simp [lexLe, hxy, hyx, h]

theorem lexLe_trans : ∀ (a b c : List Char),
    lexLe a b = true → lexLe b c = true → lexLe a c = true := by
  intro a
  induction a with
  | nil => intro b c h1 h2; rfl
  | cons x xs ih =>
    intro b c h1 h2
    cases b with
    | nil => simp [lexLe] at h1
    | cons y ys =>
      cases c with
      | nil => simp [lexLe] at h2
      | cons z zs =>
        simp only [lexLe] at h1 h2 ⊢
        by_cases hxz : x.toNat < z.toNat
        · simp [hxz]
        · by_cases hxy : x.toNat < y.toNat
          · exfalso
            by_cases hyz : y.toNat < z.toNat
            · omega
            · by_cases hzy : z.toNat < y.toNat
              · simp [hyz, hzy] at h2
              · omega
          · by_cases hyx : y.toNat < x.toNat
            · simp [hxy, hyx] at h1
            · by_cases hyz : y.toNat < z.toNat
              · exfalso; omega
              · by_cases hzy : z.toNat < y.toNat
                · simp [hyz, hzy] at h2
                · have hzx : ¬ z.toNat < x.toNat := by omega
                  simp only [hxz, hzx, if_false]
                  simp only [hxy, hyx, if_false] at h1
                  simp only [hyz, hzy, if_false] at h2
                  exact ih ys zs h1 h2

theorem strLe_refl (a : String) : strLe a a = true :=
  lexLe_refl a.data

theorem strLe_trans {a b c : String} (h1 : strLe a b = true)
    (h2 : strLe b c = true) : strLe a c = true :=
  lexLe_trans a.data b.data c.data h1 h2

theorem strLe_total (a b : String) : strLe a b = true ∨ strLe b a = true :=
  lexLe_total a.data b.data

theorem insertPath_perm (x : String) (l : List String) :
    List.Perm (insertPath x l) (x :: l) := by
  induction l with
  | nil => exact List.Perm.refl _
  | cons y ys ih =>
    by_cases h : strLe x y
    · simp [insertPath, h]
    · simp only [insertPath, h, if_neg, Bool.false_eq_true, not_false_iff, ite_false]
      exact (ih.cons y).trans (List.Perm.swap x y ys)

theorem sortPaths_perm (l : List String) : List.Perm (sortPaths l) l := by
  induction l with
  | nil => exact List.Perm.refl _
  | cons x xs ih =>
    exact (insertPath_perm x (sortPaths xs)).trans (ih.cons x)

theorem insertPath_sorted (x : String) (l : List String)
    (h : l.Pairwise (fun a b => strLe a b = true)) :
    (insertPath x l).Pairwise (fun a b => strLe a b = true) := by
  induction l with
  | nil => simp [insertPath]
  | cons y ys ih =>
    rcases List.pairwise_cons.mp h with ⟨hy, hys⟩
    by_cases hxy : strLe x y
    · simp only [insertPath, hxy, ite_true]
      refine List.pairwise_cons.mpr ⟨?_, h⟩
      intro z hz
      rcases List.mem_cons.mp hz with rfl | hz
      · exact hxy
      · exact strLe_trans hxy (hy z hz)
    · simp only [insertPath, hxy, Bool.false_eq_true, not_false_iff, ite_false]
      refine List.pairwise_cons.mpr ⟨?_, ih hys⟩
      intro z hz
      have hz' : z ∈ x :: ys := (insertPath_perm x ys).mem_iff.mp hz
      rcases List.mem_cons.mp hz' with rfl | hz'
      · rcases strLe_total z y with hzy | hyz
        · exact absurd hzy hxy
        · exact hyz
      · exact hy z hz'

theorem sortPaths_sorted (l : List String) :
    (sortPaths l).Pairwise (fun a b => strLe a b = true) := by
  induction l with
  | nil => simp [sortPaths]
  | cons x xs ih => exact insertPath_sorted x (sortPaths xs) ih

theorem firstMatchPos_of_firstOccAt (sep : List Char) :
    ∀ (s : List Char) (i : Nat), firstOccAt sep s i →
    firstMatchPos sep s = some i := by
  intro s
  induction s with
  | nil =>
    intro i hi
    rcases hi with ⟨hocc, hmin⟩
    have hdrop : List.drop i ([] : List Char) = [] := List.drop_nil
    rw [occursAt, hdrop] at hocc
    have hi0 : i = 0 := by
      by_contra hne
      exact hmin 0 (Nat.pos_of_ne_zero hne) (by rw [occursAt]; simpa using hocc)
    subst hi0
    simp [firstMatchPos, hocc]
  | cons c t ih =>
    intro i hi
    rcases hi with ⟨hocc, hmin⟩
    by_cases hhead : leadsWith sep (c :: t) = true
    · have hi0 : i = 0 := by
        by_contra hne
        exact hmin 0 (Nat.pos_of_ne_zero hne) (by rw [occursAt]; simpa using hhead)
      subst hi0
      simp [firstMatchPos, hhead]
    · have hi0 : i ≠ 0 := by
        intro h0
        subst h0
        rw [occursAt] at hocc
        simp at hocc
        exact hhead hocc
      rcases Nat.exists_eq_succ_of_ne_zero hi0 with ⟨n, rfl⟩
      have hocc' : occursAt sep t n := by
        rw [occursAt] at hocc ⊢
        simpa using hocc
      have hmin' : ∀ j, j < n → ¬ occursAt sep t j := by
        intro j hj hcj
        refine hmin (j + 1) (Nat.succ_lt_succ hj) ?_
        rw [occursAt] at hcj ⊢
        simpa using hcj
      have := ih n ⟨hocc', hmin'⟩
      simp [firstMatchPos, hhead, this]

theorem processOne_ok {env : Env} {g : List Nat} {r_img : Grid} {path : String}
    {recs : List Record}
    (h : processOne env g r_img path = Except.ok recs) :
    ∃ p_img year, env.maskPop path g = Except.ok p_img ∧
      extract_year path = some year ∧
      recs = processRaster env.features r_img p_img year := by
  unfold processOne at h
  cases hmask : env.maskPop path g with
  | error e => rw [hmask] at h; exact absurd h (by simp)
  | ok p_img =>
    rw [hmask] at h
    cases hyr : extract_year path with
    | none => rw [hyr] at h; exact absurd h (by simp)
    | some year =>
      rw [hyr] at h
      exact ⟨p_img, year, rfl, rfl, (Except.ok.injEq _ _ ▸ h.symm :)⟩

theorem okRecords_of_ok {env : Env} {g : List Nat} {r_img : Grid}
    {path : String} {recs : List Record}
    (h : processOne env g r_img path = Except.ok recs) :
    okRecords env g r_img path = recs := by
  unfold okRecords
  rw [h]

theorem runLoop_noerr {env : Env} {g : List Nat} {r_img : Grid} :
    ∀ (paths : List String),
    (runLoop env g r_img paths).2.1 = none →
    (runLoop env g r_img paths).1 = paths.flatMap (okRecords env g r_img) ∧
      ∀ p, p ∈ paths → ∃ recs, processOne env g r_img p = Except.ok recs := by
  intro paths
  induction paths with
  | nil => intro _; exact ⟨rfl, by simp⟩
  | cons path rest ih =>
    intro hno
    cases hp : processOne env g r_img path with
    | error e =>
      exfalso
      unfold runLoop at hno
      rw [hp] at hno
      simp at hno
    | ok recs =>
      unfold runLoop at hno ⊢
      rw [hp] at hno ⊢
      simp only at hno
      rcases ih hno with ⟨hrecs, hmem⟩
      constructor
      · simp only [List.flatMap_cons, hrecs, okRecords_of_ok hp]
      · intro p hpmem
        rcases List.mem_cons.mp hpmem with rfl | hpmem
        · exact ⟨recs, hp⟩
        · exact hmem p hpmem

theorem runLoop_error {env : Env} {g : List Nat} {r_img : Grid} {e : String}
    {p : String} :
    ∀ (pre post : List String),
    (∀ q, q ∈ pre → ∃ recs, processOne env g r_img q = Except.ok recs) →
    processOne env g r_img p = Except.error e →
    (runLoop env g r_img (pre ++ p :: post)).1 =
        pre.flatMap (okRecords env g r_img) ∧
      (runLoop env g r_img (pre ++ p :: post)).2.1 = some e := by
  intro pre
  induction pre with
  | nil =>
    intro post _ hp
    rw [List.nil_append]
    simp [runLoop, hp]
  | cons q pre ih =>
    intro post hpre hp
    rcases hpre q (List.mem_cons_self q pre) with ⟨recs, hq⟩
    have hpre' : ∀ q', q' ∈ pre → ∃ recs, processOne env g r_img q' = Except.ok recs :=
      fun q' hq' => hpre q' (List.mem_cons_of_mem q hq')
    rcases ih post hpre' hp with ⟨h1, h2⟩
    rw [List.cons_append]
    simp only [runLoop, hq, List.flatMap_cons, okRecords_of_ok hq]
    exact ⟨by rw [h1], h2⟩

theorem runLoop_log {env : Env} {g : List Nat} {r_img : Grid} :
    ∀ (paths : List String) (gl : List Nat),
    gl ∈ (runLoop env g r_img paths).2.2 → gl = g := by
  intro paths
  induction paths with
  | nil => intro gl h; simp [runLoop] at h
  | cons path rest ih =>
    intro gl h
    unfold runLoop at h
    cases hp : processOne env g r_img path with
    | error e =>
      rw [hp] at h
      simpa using h
    | ok recs =>
      rw [hp] at h
      simp only [List.mem_cons] at h
      rcases h with rfl | h
      · rfl
      · exact ih gl h

theorem flatMap_length_const {α β : Type} (F : α → List β) (n : Nat) :
    ∀ (l : List α), (∀ p, p ∈ l → (F p).length = n) →
    (l.flatMap F).length = l.length * n := by
  intro l
  induction l with
  | nil => intro _; simp
  | cons x xs ih =>
    intro h
    have hx := h x (List.mem_cons_self x xs)
    have hxs := ih (fun p hp => h p (List.mem_cons_of_mem x hp))
    simp only [List.flatMap_cons, List.length_append, hx, hxs,
      List.length_cons, Nat.succ_mul]
    omega

theorem pairwise_year_flatMap (paths : List String) (F : String → List Record)
    (hy : ∀ p, p ∈ paths → ∀ r, r ∈ F p → r.year = yearD p)
    (hp : paths.Pairwise (fun a b => strLe a b = true))
    (hm : ∀ p q, p ∈ paths → q ∈ paths → strLe p q = true →
      strLe (yearD p) (yearD q) = true) :
    (paths.flatMap F).Pairwise
      (fun a b : Record => strLe a.year b.year = true) := by
  induction paths with
  | nil => simp
  | cons p ps ih =>
    rcases List.pairwise_cons.mp hp with ⟨hppq, hps⟩
    simp only [List.flatMap_cons]
    refine List.pairwise_append.mpr ⟨?_, ?_, ?_⟩
    · refine List.pairwise_of_forall_mem_list ?_
      intro a ha b hb
      rw [hy p (List.mem_cons_self p ps) a ha,
        hy p (List.mem_cons_self p ps) b hb]
      exact strLe_refl _
    · exact ih
        (fun q hq r hr => hy q (List.mem_cons_of_mem p hq) r hr)
        hps
        (fun q q' hq hq' hle =>
          hm q q' (List.mem_cons_of_mem p hq) (List.mem_cons_of_mem p hq') hle)
    · intro a ha b hb
      rcases List.mem_flatMap.mp hb with ⟨q, hq, hbq⟩
      rw [hy p (List.mem_cons_self p ps) a ha,
        hy q (List.mem_cons_of_mem p hq) b hbq]
      exact hm p q (List.mem_cons_self p ps) (List.mem_cons_of_mem p hq)
        (hppq q hq)

/-- C1: for every population raster (band list) of the same shape as the mask
band and every zone, the rural sum plus the urban sum of a record equals the
total population over the pixels of that zone whose mask value is 0 or 1
(no-data pixels excluded): the two `np.where` grids partition the population
grid over mask values 0 and 1, and the per-zone sum is linear. -/
theorem c1_rural_plus_urban_partition (fs : List Feature) (r_img : Grid)
    (p_img : List Grid) (year : String) (i : Nat) (f : Feature)
    (hshape : r_img.map List.length = (p_img[0]?.getD []).map List.length)
    (hf : fs[i]? = some f) :
    ∃ rec, (processRaster fs r_img p_img year)[i]? = some rec ∧
      rec.rural_pop.getD 0 + rec.urban_pop.getD 0 =
        maskedTotal f.pixels r_img (p_img[0]?.getD []) := by
  refine ⟨recordFor r_img p_img year f, ?_, ?_⟩
  · rw [processRaster_getElem?, hf]
    rfl
  · simp only [recordFor]
    rw [zoneSum_getD, zoneSum_getD]
    exact sum_npWhere_split r_img (p_img[0]?.getD []) hshape f.pixels

/-- Witness for C1 on a 2-by-2 grid with mask values 1, 0, 3, 1 and
populations 5, 6, 7, 8: the zone covering pixels (0,0), (0,1), (1,0) has
rural sum 5, urban sum 6, and total over mask-in-{0,1} pixels 11. -/
theorem c1_rural_plus_urban_partition_witness :
    (([[1, 0], [3, 1]] : Grid).map List.length =
      ((([[[5, 6], [7, 8]]] : List Grid)[0]?).getD []).map List.length) ∧
    (([{ id := 1, name := "A", pixels := [(0, 0), (0, 1), (1, 0)] }] :
        List Feature)[0]? =
      some { id := 1, name := "A", pixels := [(0, 0), (0, 1), (1, 0)] }) ∧
    ∃ rec,
      (processRaster [{ id := 1, name := "A", pixels := [(0, 0), (0, 1), (1, 0)] }]
        [[1, 0], [3, 1]] [[[5, 6], [7, 8]]] "2005")[0]? = some rec ∧
      rec.rural_pop.getD 0 + rec.urban_pop.getD 0 =
        maskedTotal [(0, 0), (0, 1), (1, 0)] [[1, 0], [3, 1]]
          (([[[5, 6], [7, 8]]] : List Grid)[0]?.getD []) :=
  ⟨by decide, by decide,
    c1_rural_plus_urban_partition
      [{ id := 1, name := "A", pixels := [(0, 0), (0, 1), (1, 0)] }]
      [[1, 0], [3, 1]] [[[5, 6], [7, 8]]] "2005" 0
      { id := 1, name := "A", pixels := [(0, 0), (0, 1), (1, 0)] }
      (by decide) (by decide)⟩

/-- C2: the records built for one raster number exactly one per zone feature
and appear in zone-collection order, the i-th record pairing the i-th zone
attributes with the i-th rural/urban sums; the modelled zonal-statistics
computation returns one statistic per zone without reordering or filtering
(it is a map over the feature list), which is the precondition the claim
names. -/
theorem c2_one_record_per_zone (fs : List Feature) (r_img : Grid)
    (p_img : List Grid) (year : String) :
    (processRaster fs r_img p_img year).length = fs.length ∧
    ∀ i : Nat, (processRaster fs r_img p_img year)[i]? =
      fs[i]?.map (recordFor r_img p_img year) :=
  ⟨processRaster_length fs r_img p_img year,
    fun i => processRaster_getElem? fs r_img p_img year i⟩

/-- C5: with equal-shape mask and population bands, the rural grid holds the
population exactly where the mask is 1 and 0 elsewhere, the urban grid holds
it exactly where the mask is 0 and 0 elsewhere, and every pixel with any
other mask value (for example no-data 3) contributes 0 to both grids and
hence 0 to every zonal sum over any pixel list. -/
theorem c5_derived_grid_values (m p : Grid)
    (h : m.map List.length = p.map List.length) :
    (∀ r c : Nat, getPixel (npWhere m p 1) (r, c) =
        if getPixel m (r, c) = 1 then getPixel p (r, c) else 0) ∧
    (∀ r c : Nat, getPixel (npWhere m p 0) (r, c) =
        if getPixel m (r, c) = 0 then getPixel p (r, c) else 0) ∧
    (∀ r c : Nat, getPixel m (r, c) ≠ 0 → getPixel m (r, c) ≠ 1 →
      getPixel (npWhere m p 1) (r, c) = 0 ∧
        getPixel (npWhere m p 0) (r, c) = 0) ∧
    (∀ pixels : List (Nat × Nat),
      (∀ rc, rc ∈ pixels → getPixel m rc ≠ 0 ∧ getPixel m rc ≠ 1) →
      (pixels.map (fun rc => getPixel (npWhere m p 1) rc)).sum = 0 ∧
        (pixels.map (fun rc => getPixel (npWhere m p 0) rc)).sum = 0) := by
  have h1 := getPixel_npWhere 1 m p h
  have h0 := getPixel_npWhere 0 m p h
  have hz : ∀ rc : Nat × Nat, getPixel m rc ≠ 0 → getPixel m rc ≠ 1 →
      getPixel (npWhere m p 1) rc = 0 ∧ getPixel (npWhere m p 0) rc = 0 := by
    intro rc hn0 hn1
    have e1 := h1 rc.1 rc.2
    have e0 := h0 rc.1 rc.2
    have hrc : (rc.1, rc.2) = rc := rfl
    rw [hrc] at e1 e0
    rw [e1, e0, if_neg hn1, if_neg hn0]
    exact ⟨rfl, rfl⟩
  refine ⟨h1, h0, fun r c => hz (r, c), ?_⟩
  intro pixels hpix
  constructor
  · refine List.sum_eq_zero ?_
    intro x hx
    rcases List.mem_map.mp hx with ⟨rc, hrc, rfl⟩
    exact (hz rc (hpix rc hrc).1 (hpix rc hrc).2).1
  · refine List.sum_eq_zero ?_
    intro x hx
    rcases List.mem_map.mp hx with ⟨rc, hrc, rfl⟩
    exact (hz rc (hpix rc hrc).1 (hpix rc hrc).2).2

/-- Witness for C5 at the no-data pixel (1,0) of a 2-by-2 mask. -/
theorem c5_derived_grid_values_witness :
    (([[1, 0], [3, 1]] : Grid).map List.length =
      ([[5, 6], [7, 8]] : Grid).map List.length) ∧
    getPixel [[1, 0], [3, 1]] (1, 0) ≠ 0 ∧
    getPixel [[1, 0], [3, 1]] (1, 0) ≠ 1 ∧
    (getPixel (npWhere [[1, 0], [3, 1]] [[5, 6], [7, 8]] 1) (1, 0) = 0 ∧
      getPixel (npWhere [[1, 0], [3, 1]] [[5, 6], [7, 8]] 0) (1, 0) = 0) :=
  ⟨by decide, by decide, by decide,
    (c5_derived_grid_values [[1, 0], [3, 1]] [[5, 6], [7, 8]]
      (by decide)).2.2.1 1 0 (by decide) (by decide)⟩

/-- C9: the records built for a raster depend only on band 0 of the clipped
population image — two band lists with the same first band produce identical
records, so bands beyond the first never affect any output value. -/
theorem c9_only_band_zero_matters (fs : List Feature) (r_img : Grid)
    (p q : List Grid) (year : String) (h : p[0]? = q[0]?) :
    processRaster fs r_img p year = processRaster fs r_img q year := by
  apply List.ext_getElem?
  intro i
  rw [processRaster_getElem?, processRaster_getElem?]
  have hrec : recordFor r_img p year = recordFor r_img q year := by
    funext f
    simp only [recordFor, h]
  rw [hrec]

/-- Witness for C9: a two-band raster and its first band alone give the same
records. -/
theorem c9_only_band_zero_matters_witness :
    (([[[5]], [[9]]] : List Grid)[0]? = ([[[5]]] : List Grid)[0]?) ∧
    processRaster [{ id := 1, name := "A", pixels := [(0, 0)] }] [[1]]
        [[[5]], [[9]]] "2005" =
      processRaster [{ id := 1, name := "A", pixels := [(0, 0)] }] [[1]]
        [[[5]]] "2005" :=
  ⟨rfl, c9_only_band_zero_matters [{ id := 1, name := "A", pixels := [(0, 0)] }]
    [[1]] [[[5]], [[9]]] [[[5]]] "2005" rfl⟩

/-- C4: the extracted year token is the substring of the path strictly
between the first occurrence of `lspop` and the first following occurrence of
`/hdr.adf`; in particular for `data/lspop2005/hdr.adf` it is `2005`. -/
theorem c4_year_token_between_markers :
    (∀ (path : String) (i j : Nat),
      firstOccAt ("lspop".data) path.data i →
      firstOccAt ("/hdr.adf".data) (path.data.drop (i + ("lspop".data).length)) j →
      extract_year path =
        some (String.mk
          ((path.data.drop (i + ("lspop".data).length)).take j))) ∧
    extract_year "data/lspop2005/hdr.adf" = some "2005" := by
  constructor
  · intro path i j h1 h2
    unfold extract_year pySplitOnce pyHeadSplit
    rw [firstMatchPos_of_firstOccAt ("lspop".data) path.data i h1]
    simp only [List.getElem?_cons_succ, List.getElem?_cons_zero]
    rw [firstMatchPos_of_firstOccAt ("/hdr.adf".data) _ j h2]
  · decide

/-- Witness for C4: on `data/lspop2005/hdr.adf` the first `lspop` is at
offset 5 and the first `/hdr.adf` of the remainder at offset 4, and the
extracted token is the 4 characters after `lspop`, namely `2005`. -/
theorem c4_year_token_between_markers_witness :
    firstOccAt ("lspop".data) ("data/lspop2005/hdr.adf").data 5 ∧
    firstOccAt ("/hdr.adf".data)
      (("data/lspop2005/hdr.adf").data.drop (5 + ("lspop".data).length)) 4 ∧
    extract_year "data/lspop2005/hdr.adf" =
      some (String.mk
        ((("data/lspop2005/hdr.adf").data.drop
          (5 + ("lspop".data).length)).take 4)) :=
  ⟨by decide, by decide,
    c4_year_token_between_markers.1 "data/lspop2005/hdr.adf" 5 4
      (by decide) (by decide)⟩

/-- C6: discovery sorts the glob matches lexically — directories lspop1998,
lspop2000, lspop1999 come back in the order 1998, 1999, 2000 — and an empty
glob result gives the empty raster list with no error, after which the run
writes only the CSV header. -/
theorem c6_discovery_sorted_and_empty :
    get_pop_rasters envGlob3 =
      ["data/lspop1998/hdr.adf", "data/lspop1999/hdr.adf",
       "data/lspop2000/hdr.adf"] ∧
    ∀ env : Env, env.globLspop = [] →
      get_pop_rasters env = [] ∧ mainOutput env = ([csvHeader], none) := by
  constructor
  · decide
  · intro env h
    have hr : get_pop_rasters env = [] := by
      unfold get_pop_rasters
      rw [h]
      rfl
    refine ⟨hr, ?_⟩
    unfold mainOutput recsOf errOf
    rw [hr]
    rfl

/-- Witness for C6 at a concrete environment with an empty glob result. -/
theorem c6_discovery_sorted_and_empty_witness :
    envNoRasters.globLspop = [] ∧
    (get_pop_rasters envNoRasters = [] ∧
      mainOutput envNoRasters = ([csvHeader], none)) :=
  ⟨rfl, c6_discovery_sorted_and_empty.2 envNoRasters rfl⟩

/-- C8: the clip geometry of every raster mask operation is the list of all
feature geometries of the bounding-box file: it equals the geometry of each
of the n features in order (no check that n = 1), and with zero features the
mask calls receive the empty geometry list. -/
theorem c8_clip_geometry_all_features (env : Env) :
    clip_box env = env.boundingbox.map (fun b => b.geometry) ∧
    (clip_box env).length = env.boundingbox.length ∧
    (∀ gl, gl ∈ maskCallLog env → gl = clip_box env) ∧
    (env.boundingbox = [] → ∀ gl, gl ∈ maskCallLog env → gl = []) := by
  have hlog : ∀ gl, gl ∈ maskCallLog env → gl = clip_box env := by
    intro gl h
    unfold maskCallLog at h
    rcases List.mem_cons.mp h with rfl | h
    · rfl
    · exact runLoop_log (get_pop_rasters env) gl h
  refine ⟨rfl, List.length_map _ _, hlog, ?_⟩
  intro hbb gl h
  rw [hlog gl h]
  unfold clip_box
  rw [hbb]
  rfl

/-- Witness for C8 at a concrete environment whose bounding-box file has no
feature: every mask call receives the empty geometry list. -/
theorem c8_clip_geometry_all_features_witness :
    envFail.boundingbox = [] ∧
    ∀ gl, gl ∈ maskCallLog envFail → gl = [] :=
  ⟨rfl, (c8_clip_geometry_all_features envFail).2.2.2 rfl⟩

/-- C10: the run is deterministic and ignores previous output-file contents —
two runs over equal environments (equal input-file contents and library
behaviour) produce the same records, the same error status and the same CSV
file, whatever the output file held before each run, because the file is
opened for truncating write. -/
theorem c10_deterministic_output (env1 env2 : Env)
    (prev1 prev2 : List (List String)) (h : env1 = env2) :
    fileAfterRun env1 prev1 = fileAfterRun env2 prev2 ∧
    mainOutput env1 = mainOutput env2 ∧
    recsOf env1 = recsOf env2 := by
  subst h
  exact ⟨rfl, rfl, rfl⟩

/-- Witness for C10: a run on the concrete environment gives the same file
contents over two different previous file states. -/
theorem c10_deterministic_output_witness :
    fileAfterRun envOk [["stale", "rows"]] = fileAfterRun envOk [] ∧
    mainOutput envOk = mainOutput envOk ∧ recsOf envOk = recsOf envOk :=
  c10_deterministic_output envOk envOk [["stale", "rows"]] [] rfl

/-- C7: when the processing of one raster fails (any library call for that
year raising), the run aborts with that error propagated unmodified: no year
is skipped or retried, nothing is written for the failing or any later year,
and the header plus the rows of the earlier years remain in the output. -/
theorem c7_failure_aborts_run (env : Env) (pre post : List String)
    (p e : String)
    (hpaths : get_pop_rasters env = pre ++ p :: post)
    (hpre : ∀ q, q ∈ pre → ∃ recs,
      processOne env (clip_box env) (r_imgOf env) q = Except.ok recs)
    (hp : processOne env (clip_box env) (r_imgOf env) p = Except.error e) :
    (mainOutput env).2 = some e ∧
    (mainOutput env).1 = csvHeader ::
      (pre.flatMap (okRecords env (clip_box env) (r_imgOf env))).map
        recordRow := by
  rcases runLoop_error pre post hpre hp with ⟨h1, h2⟩
  constructor
  · show errOf env = some e
    unfold errOf
    rw [hpaths]
    exact h2
  · show csvHeader :: (recsOf env).map recordRow = _
    unfold recsOf
    rw [hpaths, h1]

/-- Witness for C7: a run whose only raster read fails leaves the header
alone in the file and surfaces the library error unmodified. -/
theorem c7_failure_aborts_run_witness :
    get_pop_rasters envFail = [] ++ "data/lspop2005/hdr.adf" :: [] ∧
    processOne envFail (clip_box envFail) (r_imgOf envFail)
      "data/lspop2005/hdr.adf" = Except.error "RasterioIOError" ∧
    ((mainOutput envFail).2 = some "RasterioIOError" ∧
      (mainOutput envFail).1 = csvHeader ::
        (([] : List String).flatMap
          (okRecords envFail (clip_box envFail) (r_imgOf envFail))).map
          recordRow) :=
  ⟨by decide, rfl,
    c7_failure_aborts_run envFail [] [] "data/lspop2005/hdr.adf"
      "RasterioIOError" (by decide)
      (fun q hq => absurd hq (List.not_mem_nil q)) rfl⟩

/-- C3: on an error-free run the CSV is exactly one header row followed by,
for each discovered raster path in lexically sorted order, one data row per
zone in zone-list order — hence one row per (zone, year) pair, and a total
length of paths-times-zones plus the header; when the year tokens compare
consistently with the lexical path order, the data rows are year-ascending. -/
theorem c3_csv_rows_structure (env : Env)
    (hok : (mainOutput env).2 = none) :
    (mainOutput env).1 =
      csvHeader :: ((get_pop_rasters env).flatMap
        (okRecords env (clip_box env) (r_imgOf env))).map recordRow ∧
    (get_pop_rasters env).Pairwise (fun a b => strLe a b = true) ∧
    (mainOutput env).1.length =
      (get_pop_rasters env).length * env.features.length + 1 ∧
    ((∀ p q, p ∈ get_pop_rasters env → q ∈ get_pop_rasters env →
        strLe p q = true → strLe (yearD p) (yearD q) = true) →
      (recsOf env).Pairwise
        (fun a b : Record => strLe a.year b.year = true)) := by
  have hok' : (runLoop env (clip_box env) (r_imgOf env)
      (get_pop_rasters env)).2.1 = none := hok
  rcases runLoop_noerr (get_pop_rasters env) hok' with ⟨hrecs, hmem⟩
  have hrecs' : recsOf env = (get_pop_rasters env).flatMap
      (okRecords env (clip_box env) (r_imgOf env)) := hrecs
  have hlen : ∀ p, p ∈ get_pop_rasters env →
      (okRecords env (clip_box env) (r_imgOf env) p).length =
        env.features.length := by
    intro p hpmem
    rcases hmem p hpmem with ⟨recs, hrec⟩
    rw [okRecords_of_ok hrec]
    rcases processOne_ok hrec with ⟨p_img, year, _, _, rfl⟩
    exact processRaster_length _ _ _ _
  have hsorted : (get_pop_rasters env).Pairwise
      (fun a b => strLe a b = true) := by
    unfold get_pop_rasters
    exact sortPaths_sorted env.globLspop
  refine ⟨?_, hsorted, ?_, ?_⟩
  · show csvHeader :: (recsOf env).map recordRow = _
    rw [hrecs']
  · show (csvHeader :: (recsOf env).map recordRow).length = _
    rw [List.length_cons, List.length_map, hrecs',
      flatMap_length_const _ env.features.length _ hlen]
  · intro hmono
    rw [hrecs']
    refine pairwise_year_flatMap (get_pop_rasters env) _ ?_ hsorted hmono
    intro p hpmem r hr
    rcases hmem p hpmem with ⟨recs, hrec⟩
    rw [okRecords_of_ok hrec] at hr
    rcases processOne_ok hrec with ⟨p_img, year, _, hyear, rfl⟩
    rw [year_of_mem_processRaster hr]
    unfold yearD
    rw [hyear]
    rfl

/-- Witness for C3 at the concrete one-zone, one-raster environment. -/
theorem c3_csv_rows_structure_witness :
    (mainOutput envOk).2 = none ∧
    ((mainOutput envOk).1 =
      csvHeader :: ((get_pop_rasters envOk).flatMap
        (okRecords envOk (clip_box envOk) (r_imgOf envOk))).map recordRow ∧
    (get_pop_rasters envOk).Pairwise (fun a b => strLe a b = true) ∧
    (mainOutput envOk).1.length =
      (get_pop_rasters envOk).length * envOk.features.length + 1 ∧
    ((∀ p q, p ∈ get_pop_rasters envOk → q ∈ get_pop_rasters envOk →
        strLe p q = true → strLe (yearD p) (yearD q) = true) →
      (recsOf envOk).Pairwise
        (fun a b : Record => strLe a.year b.year = true))) :=
  ⟨rfl, c3_csv_rows_structure envOk rfl⟩

theorem sanity_full_run_csv : mainOutput envOk =
    ([["id", "name", "year", "rural_pop", "urban_pop"],
      ["1", "A", "2005", "5", "6"]], none) := by decide

theorem sanity_npWhere_rural :
    npWhere [[1, 0], [3, 1]] [[5, 6], [7, 8]] 1 = [[5, 0], [0, 8]] := by decide

theorem sanity_zoneSum :
    zoneSum [(0, 0), (1, 1)] [[5, 0], [0, 8]] = some 13 := by decide
